import Mathlib

/-!
Shallow embedding of the segmented streaming playback and lookahead-generation
engine of the route-narration app.

Sources embedded here:
* `src/App.tsx` — lookahead scheduler effect (lines 66-74), `generateNextSegment`
  (lines 76-116), the `setStory` segment-store updater (lines 101-108),
  `withTimeout` (lines 21-30) and `handleGenerateStory` (lines 118-169);
* `src/components/StoryPlayer.tsx` — the buffering-resolution effect
  (lines 55-61), `playSegment` with its `onended` guard (lines 78-109),
  `handleSegmentEnd` (lines 111-127) and `togglePlayback` (lines 129-147);
* `src/unnamed/part_000` (the gemini service) — `calculateTotalSegments`
  and the continuity-context handling of `generateSegment` (lines 96-103).

Conventions: JS strings are sequences of characters (`List Char`), the audio
clock is rational-valued, fallible external calls are oracles (`CallResult`),
and React state updates are explicit state-passing functions.
-/

namespace RouteStory

/-- JS strings are modeled as lists of characters; `String.slice` becomes
list surgery on characters. -/
abbrev JSStr := List Char

/-- A decoded audio waveform (`AudioBuffer`); only the metadata the player
reads is kept: `duration` in seconds, modeled as a rational. -/
structure AudioBuf where
  duration : ℚ
deriving DecidableEq

/-- A story segment as stored by the app: `{ index, text, audioBuffer }`,
with `audioBuffer : AudioBuffer | null` modeled as an `Option`. -/
structure StorySegment where
  index : Nat
  text : JSStr
  audio : Option AudioBuf
deriving DecidableEq

/-- `AudioStory` (App.tsx state): total-segment estimate, outline beats and
the segment store. -/
structure AudioStory where
  totalSegmentsEstimate : Nat
  outline : List JSStr
  segments : List StorySegment
deriving DecidableEq

/-- Modelled from the spec and the comparison use sites in App.tsx: the
`AppState` enum itself lives in `types.ts`, which is not among the sources.
Only the three states App.tsx mentions are needed; `code` carries the numeric
enum order used by `appState < AppState.READY_TO_PLAY` (App.tsx:67). -/
inductive AppState where
  | PLANNING
  | GENERATING_INITIAL_SEGMENT
  | READY_TO_PLAY
deriving DecidableEq

/-- Numeric value of the TS enum constant, for the `<` comparisons. -/
def AppState.code : AppState → Nat
  | .PLANNING => 0
  | .GENERATING_INITIAL_SEGMENT => 1
  | .READY_TO_PLAY => 2

/-- `calculateTotalSegments` (gemini service): `Math.max(1,
Math.ceil(durationSeconds / 60))` with the 60-second target segment
duration; `(d + 59) / 60` is the ceiling division on naturals. -/
def calculateTotalSegments (durationSeconds : Nat) : Nat :=
  max 1 ((durationSeconds + 59) / 60)

/-- Order used by the store's re-sort: the JS comparator
`(a, b) => a.index - b.index`. -/
def segOrder (a b : StorySegment) : Prop := a.index ≤ b.index

instance : DecidableRel segOrder := fun a b => Nat.decLe a.index b.index

instance : IsTotal StorySegment segOrder := ⟨fun a b => Nat.le_total a.index b.index⟩

instance : IsTrans StorySegment segOrder := ⟨fun _ _ _ => Nat.le_trans⟩

/-- The `setStory` updater of `generateNextSegment` (App.tsx:101-108): if a
segment with the same index is already present the store is returned
unchanged, otherwise the new segment is appended and the list re-sorted by
index.  (`generateSegment` always returns `index = segmentIndex`, so the
guard index and the stored segment's index agree.)  The JS
`Array.prototype.sort` with this comparator is modeled by a comparison sort
over `segOrder`; on the duplicate-free stores the invariant provides, any
comparison sort computes the same list. -/
def insertSegment (prev : AudioStory) (seg : StorySegment) : AudioStory :=
  if prev.segments.any (fun s => s.index == seg.index) then prev
  else { prev with segments := List.insertionSort segOrder (prev.segments ++ [seg]) }

/-- Store invariant claimed by the spec: sorted by index with pairwise
distinct indices, i.e. strictly increasing indices. -/
def StoreInv (l : List StorySegment) : Prop :=
  l.Pairwise fun a b => a.index < b.index

/-- The lookahead scheduler effect (App.tsx:66-74).  It observes the current
story (possibly `null`), whether a route is set, the app state, the playhead
index reported by the player, and the `isGeneratingRef` flag; it returns the
index passed to `generateNextSegment`, or `none` when no generation is
requested on this evaluation. -/
def scheduleTick (story : Option AudioStory) (routePresent : Bool)
    (appState : AppState) (currentPlayingIndex : Nat) (isGenerating : Bool) :
    Option Nat :=
  match story with
  | none => none
  | some st =>
    if routePresent = false ∨ appState.code < AppState.READY_TO_PLAY.code then none
    else
      let totalGenerated := st.segments.length
      let neededBufferIndex := currentPlayingIndex + 3
      if totalGenerated < neededBufferIndex ∧
          totalGenerated < st.totalSegmentsEstimate ∧ isGenerating = false then
        some (totalGenerated + 1)
      else none

/-- Outcome of one external asynchronous call raced against a deadline:
it settles with a value, settles with a rejection carrying a message, or
fails to settle within the deadline. -/
inductive CallResult (α : Type) where
  | ok (v : α)
  | err (msg : JSStr)
  | hang
deriving DecidableEq

/-- `withTimeout` (App.tsx:21-30): `Promise.race` of the call against a
timer that rejects with `errorMsg` after the deadline. -/
def withTimeout {α : Type} (r : CallResult α) (errorMsg : JSStr) : Except JSStr α :=
  match r with
  | .ok v => .ok v
  | .err m => .error m
  | .hang => .error errorMsg

/-- Timeout message of the background text stage (App.tsx:89). -/
def segmentTextTimeoutMsg (index : Nat) : JSStr :=
  ("第 " : String).data ++ (Nat.repr index).data ++ (" 章節生成逾時" : String).data

/-- Timeout message of the background audio stage (App.tsx:97). -/
def segmentAudioTimeoutMsg (index : Nat) : JSStr :=
  ("第 " : String).data ++ (Nat.repr index).data ++ (" 章節語音生成逾時" : String).data

/-- Store effect of one `generateNextSegment(index)` invocation
(App.tsx:76-116), with the two external stages as oracles.  The text stage is
`withTimeout(generateSegment(...), 60000)`; on success `generateSegment`
returns `{ index, text }` with `index` equal to the requested one.  The audio
stage is `withTimeout(generateSegmentAudio(...), 100000)`.  Any rejection or
timeout lands in the `catch` block, which only logs — the store is left
untouched; only when both stages succeed does the `setStory` updater run. -/
def generateNextSegmentStore (prev : AudioStory) (index : Nat)
    (textRes : CallResult JSStr) (audioRes : CallResult AudioBuf) : AudioStory :=
  match withTimeout textRes (segmentTextTimeoutMsg index) with
  | .error _ => prev
  | .ok text =>
    match withTimeout audioRes (segmentAudioTimeoutMsg index) with
    | .error _ => prev
    | .ok buf => insertSegment prev { index := index, text := text, audio := some buf }

/-- Events in the life of the generation scheduler's mutual-exclusion flag
(`isGeneratingRef`, App.tsx:40,76-116): a dispatch of `generateNextSegment`
(which checks the flag and then sets it, synchronously, with no interleaving
point in between), and the four ways an invocation can exit — resolved
store update, text-stage rejection, audio-stage rejection, or a
`withTimeout` deadline.  Every exit runs the `finally` block. -/
inductive GenEvent where
  | dispatch
  | exitSuccess
  | exitTextFailure
  | exitAudioFailure
  | exitTimeout
deriving DecidableEq

/-- Flag state together with the number of `generateNextSegment` invocations
currently between their entry and their `finally`. -/
structure GenFlagState where
  isGenerating : Bool
  activeInvocations : Nat
deriving DecidableEq

/-- One event of the flag protocol.  A dispatch aborts at the guard
`if (!route || !story || isGeneratingRef.current) return` when the flag is
held; otherwise it acquires the flag (App.tsx:77,80).  Every exit path runs
`finally { isGeneratingRef.current = false }` (App.tsx:112-115); an exit
event with no active invocation has nothing to finish. -/
def genStep (s : GenFlagState) (e : GenEvent) : GenFlagState :=
  match e with
  | .dispatch =>
    if s.isGenerating then s
    else { isGenerating := true, activeInvocations := s.activeInvocations + 1 }
  | _ =>
    if s.activeInvocations = 0 then s
    else { isGenerating := false, activeInvocations := s.activeInvocations - 1 }

/-- Initial flag state: `useRef<boolean>(false)` and nothing running. -/
def genStart : GenFlagState := { isGenerating := false, activeInvocations := 0 }

/-- Last `n` elements: JS `String.prototype.slice(-n)` for `n > 0` (the whole
string when it is shorter than `n`). -/
def lastN {α : Type} (n : Nat) (l : List α) : List α :=
  l.drop (l.length - n)

/-- JS `Array.prototype.join(" ")`: texts separated by single spaces. -/
def joinSpace : List JSStr → JSStr
  | [] => []
  | [t] => t
  | t :: ts => t ++ ' ' :: joinSpace ts

/-- `allPreviousText` (App.tsx:83): texts of all stored segments joined with
spaces, truncated to the final 3000 characters, passed to `generateSegment`
as `previousContext`. -/
def allPreviousText (segs : List StorySegment) : JSStr :=
  lastN 3000 (joinSpace (segs.map (fun s => s.text)))

/-- Continuity context embedded into the text-generation prompt by
`generateSegment` (gemini service, lines 96-103): nothing for the first
segment, otherwise `previousContext.slice(-1000)` spliced into
`contextPrompt`. -/
def promptContext (segmentIndex : Nat) (previousContext : JSStr) : Option JSStr :=
  if segmentIndex = 1 then none
  else some (lastN 1000 previousContext)

/-- Continuity context that actually reaches the text-generation collaborator
for a request at `segmentIndex`, given the current store: App computes
`allPreviousText` and `generateSegment` splices its last 1000 characters
into the prompt. -/
def effectiveContinuityContext (segs : List StorySegment) (segmentIndex : Nat) :
    Option JSStr :=
  promptContext segmentIndex (allPreviousText segs)

/-- Continuity context as the spec's words describe it: the last ~3000
characters of the concatenation of all previously generated segment texts.
This is the spec-side definition used to compare against the code-side
`effectiveContinuityContext`. -/
def specContinuityContext (segs : List StorySegment) : JSStr :=
  lastN 3000 (List.flatten (segs.map (fun s => s.text)))

/-- Playback-engine state (StoryPlayer.tsx:26-36): `isPlaying`,
`isBuffering`, `autoScroll` React state, `currentSegmentIndex` (a 0-based
position into the segment array), and the `segmentOffsetRef` /
`startTimeRef` refs tracking the resume offset and the output-clock start
time of the playing source. -/
structure PlayerState where
  isPlaying : Bool
  isBuffering : Bool
  autoScroll : Bool
  currentSegmentIndex : Nat
  segmentOffset : ℚ
  startTime : ℚ
deriving DecidableEq

/-- Observable effect on the audio output: a buffer source started with
`source.start(0, offset)` for a segment. -/
structure PlayAction where
  seg : StorySegment
  offset : ℚ
deriving DecidableEq

/-- `playSegment(segment, offset)` (StoryPlayer.tsx:78-109) at output-clock
time `now`: when the segment (or its audio) is absent it only sets
`isBuffering`; otherwise it stops the previous source, records
`startTimeRef = now - offset` and starts the source at `offset`. -/
def playSegment (st : PlayerState) (seg : Option StorySegment) (offset now : ℚ) :
    PlayerState × Option PlayAction :=
  match seg with
  | none => ({ st with isBuffering := true }, none)
  | some s =>
    match s.audio with
    | none => ({ st with isBuffering := true }, none)
    | some _ => ({ st with startTime := now - offset }, some { seg := s, offset := offset })

/-- Buffering-resolution effect (StoryPlayer.tsx:55-61), re-run whenever the
segment list, the cursor, or the `isBuffering` / `isPlaying` flags change:
if the player is buffering with playing intent and the segment at the cursor
now has audio, clear `isBuffering` and play that segment from offset 0. -/
def bufferingResolution (st : PlayerState) (segs : List StorySegment) (now : ℚ) :
    PlayerState × Option PlayAction :=
  match segs[st.currentSegmentIndex]? with
  | some seg =>
    if st.isBuffering && st.isPlaying && seg.audio.isSome then
      playSegment { st with isBuffering := false } (some seg) 0 now
    else (st, none)
  | none => (st, none)

/-- `handleSegmentEnd` (StoryPlayer.tsx:111-127): advance the cursor, reset
the resume offset, and either play the next segment (audio ready), stop
(`setIsPlaying(false)`) past the estimate with no background generation, or
enter buffering. -/
def handleSegmentEnd (st : PlayerState) (segs : List StorySegment)
    (totalSegmentsEstimate : Nat) (isBackgroundGenerating : Bool) (now : ℚ) :
    PlayerState × Option PlayAction :=
  let nextIndex := st.currentSegmentIndex + 1
  let st1 := { st with currentSegmentIndex := nextIndex, segmentOffset := 0 }
  match segs[nextIndex]? with
  | some seg =>
    if seg.audio.isSome then playSegment st1 (some seg) 0 now
    else if totalSegmentsEstimate ≤ nextIndex ∧ isBackgroundGenerating = false then
      ({ st1 with isPlaying := false }, none)
    else ({ st1 with isBuffering := true }, none)
  | none =>
    if totalSegmentsEstimate ≤ nextIndex ∧ isBackgroundGenerating = false then
      ({ st1 with isPlaying := false }, none)
    else ({ st1 with isBuffering := true }, none)

/-- The `source.onended` handler installed by `playSegment`
(StoryPlayer.tsx:99-105): on an end-of-stream event at output-clock time
`now`, compute `elapsed = now - startTimeRef` and run `handleSegmentEnd`
only when `elapsed >= duration - 0.5`, where `duration` is the playing
segment's audio duration; otherwise the event is ignored. -/
def onEnded (st : PlayerState) (segs : List StorySegment)
    (totalSegmentsEstimate : Nat) (isBackgroundGenerating : Bool)
    (duration now : ℚ) : PlayerState × Option PlayAction :=
  if duration - 1 / 2 ≤ now - st.startTime then
    handleSegmentEnd st segs totalSegmentsEstimate isBackgroundGenerating now
  else (st, none)

/-- `togglePlayback` (StoryPlayer.tsx:129-147) at output-clock time `now`.
Pause: when an audio context exists and the player is not buffering, record
`segmentOffsetRef = now - startTimeRef`, stop the source, clear `isPlaying`
and `autoScroll`.  Resume: set `isPlaying`; if the segment at the cursor has
audio, clear `isBuffering`, play it from the recorded offset and restore
`autoScroll`, else enter buffering. -/
def togglePlayback (st : PlayerState) (segs : List StorySegment)
    (ctxPresent : Bool) (now : ℚ) : PlayerState × Option PlayAction :=
  if st.isPlaying then
    let offset := if ctxPresent && !st.isBuffering then now - st.startTime else st.segmentOffset
    ({ st with segmentOffset := offset, isPlaying := false, autoScroll := false }, none)
  else
    match segs[st.currentSegmentIndex]? with
    | some seg =>
      if seg.audio.isSome then
        playSegment { st with isPlaying := true, isBuffering := false, autoScroll := true }
          (some seg) st.segmentOffset now
      else ({ st with isPlaying := true, isBuffering := true }, none)
    | none => ({ st with isPlaying := true, isBuffering := true }, none)

/-- Result of `handleGenerateStory` (App.tsx:118-169) as far as the claims
observe it: the app state, the story, and the surfaced error message. -/
structure StartResult where
  appState : AppState
  story : Option AudioStory
  generationError : Option JSStr
deriving DecidableEq

/-- Helper: does `needle` occur at the start of `hay`? -/
def leadsWith : JSStr → JSStr → Bool
  | [], _ => true
  | _ :: _, [] => false
  | a :: n, b :: h => a == b && leadsWith n h

/-- JS `String.prototype.includes(needle)`. -/
def containsSub (needle : JSStr) : JSStr → Bool
  | [] => leadsWith needle []
  | c :: t => leadsWith needle (c :: t) || containsSub needle t

/-- Timeout message of the outline stage (App.tsx:131). -/
def outlineTimeoutMsg : JSStr := ("故事大綱生成逾時" : String).data

/-- Timeout message of the first-segment text stage (App.tsx:139). -/
def firstSegmentTimeoutMsg : JSStr := ("初始章節生成逾時" : String).data

/-- Timeout message of the first-segment audio stage (App.tsx:147). -/
def firstAudioTimeoutMsg : JSStr := ("初始語音生成逾時" : String).data

/-- Generic user-facing start-failure message (App.tsx:163). -/
def genericStartFailureMsg : JSStr :=
  ("無法啟動故事串流。請檢查地點資訊與網路連線後重試。" : String).data

/-- Timeout-specific user-facing start-failure message (App.tsx:165). -/
def timeoutStartFailureMsg : JSStr :=
  ("故事生成逾時。可能是您的路程較長，請再試一次。" : String).data

/-- Error classification in the `catch` of `handleGenerateStory`
(App.tsx:163-167): the timeout-specific message is chosen only when the
error message is non-empty and includes the substring "timed out" or
"timeout". -/
def classifyStartError (m : JSStr) : JSStr :=
  if m ≠ [] ∧ (containsSub ("timed out" : String).data m = true ∨
      containsSub ("timeout" : String).data m = true) then
    timeoutStartFailureMsg
  else genericStartFailureMsg

/-- Failure exit of `handleGenerateStory` (App.tsx:159-168): back to
`PLANNING` (the pre-start state, with route selection open), story never
set, and the classified message surfaced via `setGenerationError`. -/
def startFailureState (e : JSStr) : StartResult :=
  { appState := .PLANNING, story := none, generationError := some (classifyStartError e) }

/-- `handleGenerateStory` (App.tsx:118-169) with its three external stages
as oracles: the outline call (60s deadline), the first-segment text call
(60s deadline), and the first-segment audio call (100s deadline).  On
success the story is created with the single fully-ready first segment and
the app becomes `READY_TO_PLAY`; any rejection or deadline lands in the
`catch` block. -/
def handleGenerateStory (durationSeconds : Nat)
    (outlineRes : CallResult (List JSStr))
    (seg1TextRes : CallResult JSStr)
    (seg1AudioRes : CallResult AudioBuf) : StartResult :=
  let total := calculateTotalSegments durationSeconds
  match withTimeout outlineRes outlineTimeoutMsg with
  | .error e => startFailureState e
  | .ok outline =>
    match withTimeout seg1TextRes firstSegmentTimeoutMsg with
    | .error e => startFailureState e
    | .ok text =>
      match withTimeout seg1AudioRes firstAudioTimeoutMsg with
      | .error e => startFailureState e
      | .ok buf =>
        { appState := .READY_TO_PLAY,
          story := some { totalSegmentsEstimate := total, outline := outline,
                          segments := [{ index := 1, text := text, audio := some buf }] },
          generationError := none }

/-- Sample segment used by concrete witnesses: index `i + 1`, one-character
text, 60-second audio. -/
def sampleSeg (i : Nat) : StorySegment :=
  { index := i + 1, text := ['旅'], audio := some { duration := 60 } }

/-- Sample story with `n` consecutive ready segments and a given estimate,
used by concrete witnesses. -/
def mkStoryN (n total : Nat) : AudioStory :=
  { totalSegmentsEstimate := total, outline := [], segments := (List.range n).map sampleSeg }

/-- Counterexample store for the continuity-context claim: one previous
segment whose text is 1001 characters long. -/
def ctxDemoSegs : List StorySegment :=
  [{ index := 1, text := 'b' :: List.replicate 1000 'a', audio := some { duration := 60 } }]

/-- Sample player state used by concrete witnesses: playing the segment at
position 0 with output-clock start time 0. -/
def samplePlayer : PlayerState :=
  { isPlaying := true, isBuffering := false, autoScroll := true,
    currentSegmentIndex := 0, segmentOffset := 0, startTime := 0 }

/-- Claim C1: on every evaluation of the scheduler effect with a story and a
route present and the app at least `READY_TO_PLAY`, generation is requested
exactly when (segments produced) < (playhead + 3) and (segments produced) <
`totalSegmentsEstimate` and no generation is in flight, the requested index
being (segments produced) + 1; and once segments produced equals
`totalSegmentsEstimate` no request is made on any evaluation. -/
theorem scheduler_trigger_rule (st : AudioStory) (routePresent : Bool)
    (appState : AppState) (cur i : Nat) (isGenerating : Bool)
    (hroute : routePresent = true)
    (happ : AppState.READY_TO_PLAY.code ≤ appState.code) :
    (scheduleTick (some st) routePresent appState cur isGenerating = some i ↔
      (st.segments.length < cur + 3 ∧
        st.segments.length < st.totalSegmentsEstimate ∧ isGenerating = false) ∧
      i = st.segments.length + 1) ∧
    (st.segments.length = st.totalSegmentsEstimate →
      ∀ (routeP2 : Bool) (app2 : AppState) (cur2 : Nat) (inF2 : Bool),
        scheduleTick (some st) routeP2 app2 cur2 inF2 = none) := by
  subst hroute
  have hguard : ¬(true = false ∨ appState.code < AppState.READY_TO_PLAY.code) := by
    rintro (h | h)
    · exact Bool.noConfusion h
    · omega
  constructor
  · simp only [scheduleTick]
    rw [if_neg hguard]
    by_cases hc : st.segments.length < cur + 3 ∧
        st.segments.length < st.totalSegmentsEstimate ∧ isGenerating = false
    · rw [if_pos hc]
      constructor
      · intro h
        exact ⟨hc, (Option.some_inj.mp h).symm⟩
      · rintro ⟨_, rfl⟩
        rfl
    · rw [if_neg hc]
      constructor
      · intro h
        cases h
      · rintro ⟨h, _⟩
        exact absurd h hc
  · intro heq routeP2 app2 cur2 inF2
    simp only [scheduleTick]
    by_cases hg2 : routeP2 = false ∨ app2.code < AppState.READY_TO_PLAY.code
    · rw [if_pos hg2]
    · rw [if_neg hg2, if_neg]
      rintro ⟨_, h2, _⟩
      omega

/-- Witness for the scheduler trigger rule: with 3 segments produced,
estimate 10, playhead 2 and the flag clear, index 4 is requested; with
produced equal to the estimate, nothing is requested. -/
theorem scheduler_trigger_rule_witness :
    scheduleTick (some (mkStoryN 3 10)) true AppState.READY_TO_PLAY 2 false = some 4 ∧
    scheduleTick (some (mkStoryN 2 2)) true AppState.READY_TO_PLAY 0 false = none :=
  ⟨((scheduler_trigger_rule (mkStoryN 3 10) true .READY_TO_PLAY 2 4 false rfl
      (by decide)).1).mpr (by decide),
   (scheduler_trigger_rule (mkStoryN 2 2) true .READY_TO_PLAY 0 0 false rfl
      (by decide)).2 (by decide) true .READY_TO_PLAY 0 false⟩

/-- Claim C2 counterexample: with playhead 2, four segments produced and
estimate 10, the scheduler does trigger a new generation (for index 5),
because 4 < 2 + 3; the claim that no generation is triggered is false. -/
theorem scheduler_four_produced_triggers :
    scheduleTick (some (mkStoryN 4 10)) true AppState.READY_TO_PLAY 2 false ≠ none ∧
    scheduleTick (some (mkStoryN 4 10)) true AppState.READY_TO_PLAY 2 false = some 5 := by
  decide

/-- Claim C2 (amended): with lookahead 3 and playhead 2, the no-trigger
boundary is five produced segments: with 5 produced the scheduler triggers
no new generation, and with only 3 produced (and more than 3 estimated) it
triggers generation for index 4. -/
theorem scheduler_playhead_two_boundary (st5 st3 : AudioStory)
    (h5 : st5.segments.length = 5) (h3 : st3.segments.length = 3)
    (h3t : 3 < st3.totalSegmentsEstimate) :
    scheduleTick (some st5) true AppState.READY_TO_PLAY 2 false = none ∧
    scheduleTick (some st3) true AppState.READY_TO_PLAY 2 false = some 4 := by
  constructor
  · simp only [scheduleTick]
    rw [if_neg (by simp [AppState.code]), if_neg]
    rintro ⟨h, _⟩
    omega
  · simp only [scheduleTick]
    rw [if_neg (by simp [AppState.code])]
    have hc : st3.segments.length < 2 + 3 ∧
        st3.segments.length < st3.totalSegmentsEstimate ∧ True :=
      ⟨by omega, by omega, trivial⟩
    rw [if_pos hc, h3]

/-- Witness for the amended playhead-2 boundary, on concrete stories with
estimate 10. -/
theorem scheduler_playhead_two_boundary_witness :
    scheduleTick (some (mkStoryN 5 10)) true AppState.READY_TO_PLAY 2 false = none ∧
    scheduleTick (some (mkStoryN 3 10)) true AppState.READY_TO_PLAY 2 false = some 4 :=
  scheduler_playhead_two_boundary (mkStoryN 5 10) (mkStoryN 3 10)
    (by decide) (by decide) (by decide)

/- The flag protocol keeps the invocation count determined by the flag. -/
theorem genStep_flagInv (s : GenFlagState) (e : GenEvent)
    (h : s.activeInvocations = if s.isGenerating then 1 else 0) :
    (genStep s e).activeInvocations = if (genStep s e).isGenerating then 1 else 0 := by
  rcases s with ⟨flag, n⟩
  cases e <;> cases flag <;>
      simp only [genStep, Bool.false_eq_true, if_false, if_true] at h ⊢ <;>
    subst h <;> simp

theorem foldl_genStep_flagInv (events : List GenEvent) (s : GenFlagState)
    (h : s.activeInvocations = if s.isGenerating then 1 else 0) :
    (events.foldl genStep s).activeInvocations =
      if (events.foldl genStep s).isGenerating then 1 else 0 := by
  induction events generalizing s with
  | nil => exact h
  | cons e es ih => exact ih (genStep s e) (genStep_flagInv s e h)

/-- Claim C3: for any timing of events — dispatches and exits through
success, text failure, audio failure or timeout, in any order and number —
the state reached from the initial flag state never has more than one
`generateNextSegment` invocation in flight: the flag is acquired before the
text stage is dispatched and the `finally` block releases it on every exit
path, so two pipeline invocations never overlap. -/
theorem generation_mutual_exclusion (events : List GenEvent) :
    (events.foldl genStep genStart).activeInvocations ≤ 1 := by
  have h := foldl_genStep_flagInv events genStart rfl
  rw [h]
  split <;> omega

/- Inserting through the duplicate guard and the re-sort preserves the
strictly-increasing-index invariant. -/
theorem storeInv_insertSegment (prev : AudioStory) (seg : StorySegment)
    (h : StoreInv prev.segments) : StoreInv (insertSegment prev seg).segments := by
  unfold insertSegment
  by_cases hdup : prev.segments.any (fun s => s.index == seg.index) = true
  · rw [if_pos hdup]
    exact h
  · rw [if_neg hdup]
    have hfresh : ∀ s ∈ prev.segments, s.index ≠ seg.index := by
      intro s hs hEq
      exact hdup (List.any_eq_true.mpr ⟨s, hs, by simp [hEq]⟩)
    have hne : (prev.segments ++ [seg]).Pairwise (fun a b => a.index ≠ b.index) := by
      rw [List.pairwise_append]
      refine ⟨h.imp (fun hab => by omega), by simp, ?_⟩
      intro a ha b hb
      simp only [List.mem_singleton] at hb
      subst hb
      exact hfresh a ha
    have hsorted : (List.insertionSort segOrder (prev.segments ++ [seg])).Pairwise segOrder :=
      List.sorted_insertionSort segOrder _
    have hperm : List.Perm (List.insertionSort segOrder (prev.segments ++ [seg]))
        (prev.segments ++ [seg]) := List.perm_insertionSort segOrder _
    have hne2 : (List.insertionSort segOrder (prev.segments ++ [seg])).Pairwise
        (fun a b => a.index ≠ b.index) :=
      (hperm.pairwise_iff fun hab => Ne.symm hab).mpr hne
    unfold StoreInv
    exact (hsorted.and hne2).imp fun hab => Nat.lt_of_le_of_ne hab.1 hab.2

/-- Claim C4: starting from a store with strictly increasing indices, after
any sequence of insertions, in any order, the store remains sorted by index
with pairwise-distinct indices; and inserting a segment whose index is
already present leaves the store completely unchanged. -/
theorem store_sorted_unique (prev : AudioStory) (inserts : List StorySegment)
    (h : StoreInv prev.segments) :
    StoreInv ((inserts.foldl insertSegment prev).segments) ∧
    ∀ seg : StorySegment, (∃ s ∈ prev.segments, s.index = seg.index) →
      insertSegment prev seg = prev := by
  constructor
  · induction inserts generalizing prev with
    | nil => exact h
    | cons s ss ih => exact ih _ (storeInv_insertSegment _ _ h)
  · rintro seg ⟨s, hs, hEq⟩
    unfold insertSegment
    rw [if_pos (List.any_eq_true.mpr ⟨s, hs, by simp [hEq]⟩)]

/-- Witness for the store invariant: inserting segments 3 then 2 into the
one-segment initial store yields a sorted duplicate-free store, and
re-inserting index 1 is a no-op. -/
theorem store_sorted_unique_witness :
    StoreInv (([sampleSeg 2, sampleSeg 1].foldl insertSegment (mkStoryN 1 10)).segments) ∧
    insertSegment (mkStoryN 1 10) (sampleSeg 0) = mkStoryN 1 10 :=
  ⟨(store_sorted_unique (mkStoryN 1 10) [sampleSeg 2, sampleSeg 1]
      (by unfold StoreInv; decide)).1,
   (store_sorted_unique (mkStoryN 1 10) [] (by unfold StoreInv; decide)).2 (sampleSeg 0)
     ⟨sampleSeg 0, by simp [mkStoryN, sampleSeg], rfl⟩⟩

/-- Claim C5: a segment reaches the store only when both its text stage and
its audio stage succeed; on any rejection or timeout of either stage the
store is unchanged and the scheduler's next evaluation (flag released by
`finally`) requests the same index again; and stores whose segments all
carry audio keep that property, so no text-only segment is ever stored. -/
theorem segment_stored_only_on_full_success (prev : AudioStory) (i cur : Nat)
    (textRes : CallResult JSStr) (audioRes : CallResult AudioBuf) :
    ((∀ t, textRes ≠ .ok t) ∨ (∀ b, audioRes ≠ .ok b) →
      generateNextSegmentStore prev i textRes audioRes = prev ∧
      (scheduleTick (some prev) true .READY_TO_PLAY cur false = some i →
        scheduleTick (some (generateNextSegmentStore prev i textRes audioRes)) true
          .READY_TO_PLAY cur false = some i)) ∧
    (generateNextSegmentStore prev i textRes audioRes ≠ prev →
      ∃ t b, textRes = .ok t ∧ audioRes = .ok b ∧
        generateNextSegmentStore prev i textRes audioRes =
          insertSegment prev { index := i, text := t, audio := some b }) ∧
    ((∀ s ∈ prev.segments, s.audio.isSome = true) →
      ∀ s ∈ (generateNextSegmentStore prev i textRes audioRes).segments,
        s.audio.isSome = true) := by
  refine ⟨?_, ?_, ?_⟩
  · intro hfail
    have hunch : generateNextSegmentStore prev i textRes audioRes = prev := by
      cases textRes with
      | ok t =>
        cases audioRes with
        | ok b =>
          rcases hfail with hfl | hfl
          · exact absurd rfl (hfl t)
          · exact absurd rfl (hfl b)
        | err m => rfl
        | hang => rfl
      | err m => rfl
      | hang => rfl
    rw [hunch]
    exact ⟨rfl, fun hsch => hsch⟩
  · intro hne
    cases textRes with
    | ok t =>
      cases audioRes with
      | ok b => exact ⟨t, b, rfl, rfl, rfl⟩
      | err m => exact absurd rfl hne
      | hang => exact absurd rfl hne
    | err m => exact absurd rfl hne
    | hang => exact absurd rfl hne
  · intro hall s hs
    cases textRes with
    | ok t =>
      cases audioRes with
      | ok b =>
        have hmem : s ∈ (insertSegment prev { index := i, text := t, audio := some b }).segments := hs
        unfold insertSegment at hmem
        by_cases hdup : prev.segments.any (fun s2 => s2.index == i) = true
        · rw [if_pos hdup] at hmem
          exact hall s hmem
        · rw [if_neg hdup] at hmem
          have hmem2 := (List.perm_insertionSort segOrder _).mem_iff.mp hmem
          rcases List.mem_append.mp hmem2 with hmem3 | hmem3
          · exact hall s hmem3
          · simp only [List.mem_singleton] at hmem3
            subst hmem3
            rfl
      | err m => exact hall s hs
      | hang => exact hall s hs
    | err m => exact hall s hs
    | hang => exact hall s hs

/-- Witness for C5: a hung text stage at index 2 leaves the one-segment
store unchanged and the scheduler immediately re-requests index 2. -/
theorem segment_stored_only_on_full_success_witness :
    generateNextSegmentStore (mkStoryN 1 10) 2 .hang (.ok { duration := 60 }) = mkStoryN 1 10 ∧
    scheduleTick
      (some (generateNextSegmentStore (mkStoryN 1 10) 2 .hang (.ok { duration := 60 })))
      true .READY_TO_PLAY 0 false = some 2 := by
  obtain ⟨h1, h2⟩ :=
    (segment_stored_only_on_full_success (mkStoryN 1 10) 2 0 .hang
      (.ok { duration := 60 })).1 (Or.inl fun t h => nomatch h)
  exact ⟨h1, h2 (by decide)⟩

/- Composing the two tail truncations: the last 1000 characters of the last
3000 characters are the last 1000 characters. -/
theorem lastN_lastN {α : Type} (n m : Nat) (h : n ≤ m) (l : List α) :
    lastN n (lastN m l) = lastN n l := by
  unfold lastN
  rw [List.length_drop, List.drop_drop]
  congr 1
  omega

/-- Claim C6 counterexample: with a single previous segment whose text has
1001 characters, the continuity context that reaches the text-generation
prompt for segment 2 is its last 1000 characters, not the last ~3000
characters of the concatenated previous texts (which here would be the
whole 1001-character text). -/
theorem continuity_context_counterexample :
    effectiveContinuityContext ctxDemoSegs 2 ≠ some (specContinuityContext ctxDemoSegs) := by
  intro hEq
  have hEq1 : effectiveContinuityContext ctxDemoSegs 2 =
      some (lastN 1000 (allPreviousText ctxDemoSegs)) := rfl
  rw [hEq1] at hEq
  have hEq2 : lastN 1000 (allPreviousText ctxDemoSegs) = specContinuityContext ctxDemoSegs :=
    Option.some_inj.mp hEq
  have htext : ('b' :: List.replicate 1000 'a' : JSStr).length = 1001 := by
    rw [List.length_cons, List.length_replicate]
  have hjoin : joinSpace (ctxDemoSegs.map (fun s => s.text)) =
      'b' :: List.replicate 1000 'a' := rfl
  have hflat : List.flatten (ctxDemoSegs.map (fun s => s.text)) =
      'b' :: List.replicate 1000 'a' := by
    rw [show List.flatten (ctxDemoSegs.map (fun s => s.text)) =
        ('b' :: List.replicate 1000 'a') ++ [] from rfl, List.append_nil]
  have h1 : (lastN 1000 (allPreviousText ctxDemoSegs)).length = 1000 := by
    unfold allPreviousText
    rw [hjoin, lastN_lastN 1000 3000 (by omega)]
    unfold lastN
    rw [List.length_drop, htext]
  have h2 : (specContinuityContext ctxDemoSegs).length = 1001 := by
    unfold specContinuityContext
    rw [hflat]
    unfold lastN
    rw [List.length_drop, htext]
  have hlen := congrArg List.length hEq2
  rw [h1, h2] at hlen
  omega

/-- Claim C6 (amended): for every segment of index > 1, the continuity
context embedded in the text-generation prompt is the last 1000 characters
of the space-joined texts of all previously generated segments — App passes
the last 3000 characters as `previousContext` and `generateSegment`
truncates them again to the last 1000 before splicing them into the
prompt. -/
theorem continuity_context_last_1000 (segs : List StorySegment) (i : Nat)
    (hi : i ≠ 1) :
    effectiveContinuityContext segs i =
      some (lastN 1000 (joinSpace (segs.map (fun s => s.text)))) := by
  unfold effectiveContinuityContext promptContext allPreviousText
  rw [if_neg hi, lastN_lastN 1000 3000 (by omega)]

/-- Witness for the amended continuity-context rule at segment index 2 on
the demo store. -/
theorem continuity_context_last_1000_witness :
    effectiveContinuityContext ctxDemoSegs 2 =
      some (lastN 1000 (joinSpace (ctxDemoSegs.map (fun s => s.text)))) :=
  continuity_context_last_1000 ctxDemoSegs 2 (by decide)

/-- Claim C7, evaluated at the failing input: when the first-segment text
stage exceeds its 60-second deadline, story start does abort — the app
returns to `PLANNING` with no story and a user-facing message — but the
surfaced message is the generic start-failure message, not a
timeout-specific one: the classifier looks for the English substrings
"timed out" / "timeout", which the Chinese timeout message
`初始章節生成逾時` does not contain, so the timeout branch of the message
classification is unreachable for the code's own deadline errors. -/
theorem first_segment_timeout_aborts_with_generic_message :
    (handleGenerateStory 900 (.ok [(" 開始這段旅程。" : String).data]) .hang
        (.ok { duration := 60 })).appState = AppState.PLANNING ∧
    (handleGenerateStory 900 (.ok [(" 開始這段旅程。" : String).data]) .hang
        (.ok { duration := 60 })).story = none ∧
    (handleGenerateStory 900 (.ok [(" 開始這段旅程。" : String).data]) .hang
        (.ok { duration := 60 })).generationError = some genericStartFailureMsg ∧
    classifyStartError firstSegmentTimeoutMsg = genericStartFailureMsg ∧
    genericStartFailureMsg ≠ timeoutStartFailureMsg := by
  refine ⟨rfl, rfl, by decide, by decide, by decide⟩

/-- Claim C8: on an evaluation of the buffering-resolution effect where the
player is in `Buffering` with playing intent and the store has audio for
the segment at the current cursor position, the engine exits `Buffering`
and starts that segment from offset 0, with the cursor and the playing
intent unchanged — no user action is involved. -/
theorem buffering_release (st : PlayerState) (segs : List StorySegment)
    (now : ℚ) (seg : StorySegment)
    (hseg : segs[st.currentSegmentIndex]? = some seg)
    (hb : st.isBuffering = true) (hp : st.isPlaying = true)
    (ha : seg.audio.isSome = true) :
    (bufferingResolution st segs now).1.isBuffering = false ∧
    (bufferingResolution st segs now).2 = some { seg := seg, offset := 0 } ∧
    (bufferingResolution st segs now).1.isPlaying = true ∧
    (bufferingResolution st segs now).1.currentSegmentIndex = st.currentSegmentIndex := by
  obtain ⟨buf, hbuf⟩ := Option.isSome_iff_exists.mp ha
  have hred : bufferingResolution st segs now =
      ({ st with isBuffering := false, startTime := now - 0 },
        some { seg := seg, offset := 0 }) := by
    unfold bufferingResolution
    rw [hseg]
    simp [hb, hp, hbuf, playSegment]
  rw [hred]
  exact ⟨rfl, rfl, hp, rfl⟩

/-- Witness for the buffering release at a concrete buffering state with a
ready segment at the cursor. -/
theorem buffering_release_witness :
    (bufferingResolution { samplePlayer with isBuffering := true } [sampleSeg 0] 2).1.isBuffering
        = false ∧
    (bufferingResolution { samplePlayer with isBuffering := true } [sampleSeg 0] 2).2 =
      some { seg := sampleSeg 0, offset := 0 } ∧
    (bufferingResolution { samplePlayer with isBuffering := true } [sampleSeg 0] 2).1.isPlaying
        = true ∧
    (bufferingResolution { samplePlayer with isBuffering := true }
        [sampleSeg 0] 2).1.currentSegmentIndex =
      ({ samplePlayer with isBuffering := true } : PlayerState).currentSegmentIndex :=
  buffering_release { samplePlayer with isBuffering := true } [sampleSeg 0] 2 (sampleSeg 0)
    rfl rfl rfl rfl

/- Every branch of `handleSegmentEnd` advances the cursor by exactly one. -/
theorem handleSegmentEnd_advances (st : PlayerState) (segs : List StorySegment)
    (total : Nat) (bg : Bool) (now : ℚ) :
    (handleSegmentEnd st segs total bg now).1.currentSegmentIndex =
      st.currentSegmentIndex + 1 := by
  unfold handleSegmentEnd
  dsimp only
  split
  next seg heq =>
    by_cases haud : seg.audio.isSome = true
    · rw [if_pos haud]
      obtain ⟨buf, hbuf⟩ := Option.isSome_iff_exists.mp haud
      simp [playSegment, hbuf]
    · rw [if_neg haud]
      split <;> rfl
  next heq =>
    split <;> rfl

/-- Claim C9: an end-of-stream event whose elapsed time (output clock minus
recorded start time) is below the segment's audio duration minus 0.5
seconds leaves the player state completely unchanged and does not advance
the cursor; the cursor advances exactly when elapsed time is at least
duration minus 0.5 seconds. -/
theorem premature_end_guard (st : PlayerState) (segs : List StorySegment)
    (total : Nat) (bg : Bool) (duration now : ℚ) :
    (now - st.startTime < duration - 1 / 2 →
      onEnded st segs total bg duration now = (st, none)) ∧
    ((onEnded st segs total bg duration now).1.currentSegmentIndex =
        st.currentSegmentIndex + 1 ↔ duration - 1 / 2 ≤ now - st.startTime) := by
  constructor
  · intro h
    unfold onEnded
    rw [if_neg (not_le.mpr h)]
  · unfold onEnded
    by_cases h : duration - 1 / 2 ≤ now - st.startTime
    · rw [if_pos h]
      exact iff_of_true (handleSegmentEnd_advances st segs total bg now) h
    · rw [if_neg h]
      exact iff_of_false (by simp) h

/-- Witness for the premature-end guard: an end event 1 second into a
60-second segment changes nothing. -/
theorem premature_end_guard_witness :
    onEnded samplePlayer [sampleSeg 0] 5 false 60 1 = (samplePlayer, none) :=
  (premature_end_guard samplePlayer [sampleSeg 0] 5 false 60 1).1
    (by norm_num [samplePlayer])

/-- Claim C10: pausing a playing, non-buffering segment records the resume
offset as (current output-clock time − recorded start time) and leaves the
cursor index unchanged with playing intent cleared; a subsequent resume
with that segment's audio present starts the same segment from exactly the
recorded offset rather than from the segment start. -/
theorem pause_resume_offset (st : PlayerState) (segs : List StorySegment)
    (now1 now2 : ℚ) (seg : StorySegment)
    (hp : st.isPlaying = true) (hb : st.isBuffering = false)
    (hseg : segs[st.currentSegmentIndex]? = some seg)
    (ha : seg.audio.isSome = true) :
    (togglePlayback st segs true now1).1.segmentOffset = now1 - st.startTime ∧
    (togglePlayback st segs true now1).1.currentSegmentIndex = st.currentSegmentIndex ∧
    (togglePlayback st segs true now1).1.isPlaying = false ∧
    (togglePlayback ((togglePlayback st segs true now1).1) segs true now2).2 =
      some { seg := seg, offset := now1 - st.startTime } := by
  obtain ⟨buf, hbuf⟩ := Option.isSome_iff_exists.mp ha
  have hpause : togglePlayback st segs true now1 =
      (({ st with
          segmentOffset := now1 - st.startTime, isPlaying := false,
          autoScroll := false } : PlayerState), none) := by
    unfold togglePlayback
    rw [if_pos hp]
    simp [hb]
  rw [hpause]
  refine ⟨rfl, rfl, rfl, ?_⟩
  unfold togglePlayback playSegment
  simp [hseg, ha, hbuf]

/-- Witness for pause-then-resume at concrete clock times 7 and 9: pausing
records offset 7 and resuming restarts the same segment at offset 7. -/
theorem pause_resume_offset_witness :
    (togglePlayback samplePlayer [sampleSeg 0] true 7).1.segmentOffset = 7 - 0 ∧
    (togglePlayback samplePlayer [sampleSeg 0] true 7).1.currentSegmentIndex =
      samplePlayer.currentSegmentIndex ∧
    (togglePlayback samplePlayer [sampleSeg 0] true 7).1.isPlaying = false ∧
    (togglePlayback ((togglePlayback samplePlayer [sampleSeg 0] true 7).1)
        [sampleSeg 0] true 9).2 = some { seg := sampleSeg 0, offset := 7 - 0 } := by
  have h := pause_resume_offset samplePlayer [sampleSeg 0] 7 9 (sampleSeg 0)
    rfl rfl rfl rfl
  exact h

end RouteStory
